import Mathlib

/-!
Verification of the isla symbolic execution engine core.

This file gives a shallow embedding in Lean 4 of the core of the isla
symbolic execution engine (isla-lib/src/executor.rs) together with a model
of the control-flow linearizer fallback path (isla-lib/src/ir/linearize.rs)
and the work-stealing pool coordinator, and proves properties of these
definitions.

Modelling conventions:
 - Rust `HashMap` bindings become association lists with overwrite-insert
   (`alinsert` erases the old key), observationally equal through `alget`.
 - The SMT solver is a record of a fresh-variable counter, the list of
   definitions sent to it, and the append-only event log; `check_sat_with`
   is an oracle parameter (the solver backend is external to the engine).
 - Rust closures (the return continuation stack, primop function pointers)
   are defunctionalized: the continuation stores the captured caller frame
   and destination, primop pointers become names resolved in an `Ext`
   record of external primitive implementations.
 - Recursion that is not structural in Rust (types through the struct
   registry, the interpreter loop) is made total with an explicit fuel
   parameter; running out of fuel is distinguished from program behaviour.
 - Rust panics (process aborts) are kept distinct from engine `Error`
   results via the `Failure` type.
-/

namespace Isla

/-- IR names are interned identifiers (`Name = u32` in the IR layer). -/
abbrev Name := Nat

/-- Distinguished name for the return slot (from the IR layer, external to
the executor). The concrete value is arbitrary but distinct from the other
distinguished names. -/
def RETURN : Name := 0

/-- Distinguished intrinsic function id for internal vector allocation. -/
def INTERNAL_VECTOR_INIT : Name := 1

/-- Distinguished intrinsic function id for internal vector update. -/
def INTERNAL_VECTOR_UPDATE : Name := 2

/-- Distinguished intrinsic function id for sail exit. -/
def SAIL_EXIT : Name := 3

/-- Association list lookup: first binding wins (models `HashMap::get`). -/
def alget {α : Type} : List (Name × α) → Name → Option α
  | [], _ => none
  | (k, x) :: rest, k' => if k = k' then some x else alget rest k'

/-- Association list insert with overwrite (models `HashMap::insert`). -/
def alinsert {α : Type} (l : List (Name × α)) (k : Name) (x : α) : List (Name × α) :=
  (k, x) :: l.filter (fun p => decide (p.1 ≠ k))

/-- Association list key membership (models `HashMap::contains_key`). -/
def alcontains {α : Type} (l : List (Name × α)) (k : Name) : Bool :=
  l.any (fun p => p.1 = k)

/-- IR types (`Ty<u32>` from the IR layer). -/
inductive Ty where
  | i64
  | i128
  | anyBits
  | bits (n : Nat)
  | unit
  | bool
  | bit
  | string
  | real
  | enum (name : Name)
  | struct (name : Name)
  | union (name : Name)
  | vector (ty : Ty)
  | fixedVector (n : Nat) (ty : Ty)
  | list (ty : Ty)
  | ref (ty : Ty)
deriving DecidableEq, Repr

/-- Runtime values (`Val` from the IR layer). Bitvectors carry their width
in-band (`Sbits`); a symbolic value is an SMT variable handle. -/
inductive Val where
  | symbolic (sym : Nat)
  | i64 (n : Int)
  | i128 (n : Int)
  | bool (b : Bool)
  | bits (width : Nat) (value : Nat)
  | string (s : String)
  | unit
  | vector (elems : List Val)
  | list (elems : List Val)
  | struct (fields : List (Name × Val))
  | ctor (tag : Name) (v : Val)
  | poison

/-- A binding slot is either uninitialized (carrying its type) or holds a
value (`UVal` in executor.rs). -/
inductive UVal where
  | uninit (ty : Ty)
  | init (v : Val)

/-- Accessor path element for register events. -/
inductive Accessor where
  | field (n : Name)
deriving DecidableEq, Repr

/-- Source location attached to Jump instructions. -/
abbrev SrcLoc := String

/-- SMT sorts used by the engine (smtlib::Ty). -/
inductive SmtTy where
  | bitVec (n : Nat)
  | bool
deriving DecidableEq, Repr

/-- SMT expressions used by the engine (the fragment of smtlib::Exp the
executor itself constructs). `bits8` is an 8-bit literal (primop smt_u8). -/
inductive SmtExp where
  | var (sym : Nat)
  | not (e : SmtExp)
  | bvult (a b : SmtExp)
  | bits8 (n : Nat)
deriving DecidableEq, Repr

/-- SMT definitions sent to the solver (smtlib::Def). -/
inductive SmtDef where
  | declareConst (sym : Nat) (ty : SmtTy)
  | assert (e : SmtExp)
deriving DecidableEq, Repr

/-- Events recorded in the solver's event log (the kinds the executor
emits; memory events come from external primops). -/
inductive Event where
  | readReg (id : Name) (acc : List Accessor) (v : Val)
  | writeReg (id : Name) (acc : List Accessor) (v : Val)
  | branch (id : Nat) (loc : SrcLoc)

/-- The SMT solver state visible to the engine: a fresh-variable counter,
the definitions added so far, and the append-only event log. -/
structure Solver where
  nextSym : Nat
  defs : List SmtDef
  events : List Event

/-- `Solver::fresh`: return a fresh variable handle. -/
def Solver.fresh (s : Solver) : Nat × Solver :=
  (s.nextSym, { s with nextSym := s.nextSym + 1 })

/-- `Solver::add`: append a definition. -/
def Solver.add (s : Solver) (d : SmtDef) : Solver :=
  { s with defs := s.defs ++ [d] }

/-- `Solver::add_event`: append an event to the log. -/
def Solver.addEvent (s : Solver) (e : Event) : Solver :=
  { s with events := s.events ++ [e] }

/-- A checkpoint is an opaque, immutable snapshot of the solver state that
can be restored into a fresh solver context. -/
abbrev Checkpoint := Solver

/-- `checkpoint(solver)`: snapshot the current solver state. -/
def checkpoint (s : Solver) : Checkpoint := s

/-- The engine error taxonomy (error.rs, external; variants as used by the
executor and the spec). -/
inductive Error where
  | unreachable (msg : String)
  | type (msg : String)
  | unimplemented
  | dead
  | exit
  | symbolic
deriving DecidableEq, Repr

/-- A failure is either a returned engine `Error` (Rust `Err(_)`) or a
process abort (Rust `panic!`); the two are observationally different. -/
inductive Failure where
  | err (e : Error)
  | panic (msg : String)
deriving DecidableEq, Repr

/-- Primitive operator tags recognized by the expression evaluator. -/
inductive Op where
  | lt
  | gt
  | eq
  | neq
  | add
  | bvor
  | bvxor
  | bvand
  | not
  | slice (len : Nat)
  | setSlice
  | unsigned (n : Nat)
  | head
  | tail
  | and
  | or
deriving DecidableEq, Repr

/-- IR expressions (`Exp<u32>`). The final constructors fall into the
evaluator's catch-all panic arm. -/
inductive Exp where
  | id (v : Name)
  | i64 (n : Int)
  | i128 (n : Int)
  | unit
  | bool (b : Bool)
  | bits (width : Nat) (value : Nat)
  | string (s : String)
  | undefined (ty : Ty)
  | call (op : Op) (args : List Exp)
  | kind (ctor : Name) (e : Exp)
  | unwrap (ctor : Name) (e : Exp)
  | field (e : Exp) (f : Name)
  | ref (r : Name)

/-- L-value locations (`Loc<u32>`). -/
inductive Loc where
  | id (v : Name)
  | field (l : Loc) (f : Name)
  | addr (l : Loc)
deriving DecidableEq, Repr

/-- IR instructions (`Instr<u32>`). Primop function pointers are
defunctionalized into names resolved by the `Ext` record; `monomorphize`
stands for the instruction variants the interpreter silently skips. -/
inductive Instr where
  | decl (v : Name) (ty : Ty)
  | init (v : Name) (ty : Ty) (e : Exp)
  | jump (e : Exp) (target : Nat) (loc : SrcLoc)
  | goto (target : Nat)
  | copy (l : Loc) (e : Exp)
  | monomorphize (v : Name)
  | primopUnary (l : Loc) (f : Name) (arg : Exp)
  | primopBinary (l : Loc) (f : Name) (arg1 arg2 : Exp)
  | primopVariadic (l : Loc) (f : Name) (args : List Exp)
  | call (l : Loc) (isExt : Bool) (f : Name) (args : List Exp)
  | end_

/-- Name-to-slot bindings (`Bindings<'ir>` = `HashMap<u32, UVal>`). -/
abbrev Bindings := List (Name × UVal)

/-- The three disjoint binding maps of a frame (`LocalState`). -/
structure LocalState where
  vars : Bindings
  regs : Bindings
  lets : Bindings

/-- Memory is external to the executor (memory.rs); the executor only
clones and stores it, so a placeholder byte map suffices. -/
abbrev Memory := List (Nat × Nat)

/-- The shared, read-only static context (`SharedState`, from the IR
layer): function table, struct and enum registries, enum member positions,
and union constructor ids. -/
structure SharedState where
  functions : Name → Option (List (Name × Ty) × Ty × List Instr)
  structs : Name → Option (List (Name × Ty))
  enums : Name → Option (List Name)
  enum_members : Name → Option Nat
  union_ctors : List Name

mutual

/-- An immutable snapshot of the program state (`Frame`): pc, branch and
backjump counters, shared local state, shared memory, the instruction
slice, and the return-continuation stack. -/
inductive Frame where
  | mk (pc : Nat) (branches : Nat) (backjumps : Nat) (local_state : LocalState)
      (memory : Memory) (instrs : List Instr) (stack : Stack)

/-- The return-continuation stack (`Stack`): `none`, or a defunctionalized
closure capturing the frozen caller frame and the call destination. -/
inductive Stack where
  | none
  | cont (caller : Frame) (loc : Loc)

end

def Frame.pc : Frame → Nat
  | .mk pc _ _ _ _ _ _ => pc

def Frame.branches : Frame → Nat
  | .mk _ branches _ _ _ _ _ => branches

def Frame.backjumps : Frame → Nat
  | .mk _ _ backjumps _ _ _ _ => backjumps

def Frame.local_state : Frame → LocalState
  | .mk _ _ _ ls _ _ _ => ls

def Frame.memory : Frame → Memory
  | .mk _ _ _ _ m _ _ => m

def Frame.instrs : Frame → List Instr
  | .mk _ _ _ _ _ instrs _ => instrs

def Frame.stack : Frame → Stack
  | .mk _ _ _ _ _ _ stack => stack

/-- `Frame { pc, ..f }`: replace the pc of a frozen frame. -/
def Frame.withPc (pc : Nat) : Frame → Frame
  | .mk _ b bj ls m i s => .mk pc b bj ls m i s

/-- The mutable working copy of a frame used by an executing worker
(`LocalFrame`). -/
structure LocalFrame where
  pc : Nat
  branches : Nat
  backjumps : Nat
  local_state : LocalState
  memory : Memory
  instrs : List Instr
  stack : Stack

/-- `unfreeze_frame`: deep-copy a snapshot into an owned working frame. -/
def unfreeze_frame (f : Frame) : LocalFrame :=
  { pc := f.pc
    branches := f.branches
    backjumps := f.backjumps
    local_state := f.local_state
    memory := f.memory
    instrs := f.instrs
    stack := f.stack }

/-- `freeze_frame`: wrap the working state back into an immutable
snapshot. -/
def freeze_frame (f : LocalFrame) : Frame :=
  .mk f.pc f.branches f.backjumps f.local_state f.memory f.instrs f.stack

/-- Type of external unary primitive operators (primop.rs, external). -/
abbrev PrimUn := Val → Solver → Except Error (Val × Solver)

/-- Type of external binary primitive operators. -/
abbrev PrimBin := Val → Val → Solver → Except Error (Val × Solver)

/-- The external primitive operator implementations the executor delegates
to (primop.rs is outside the engine core). Named function pointers in
`Instr` are resolved through `unary`, `binary`, and `variadic`; variadic
primops additionally receive and may mutate the local frame. -/
structure Ext where
  op_lt : PrimBin
  op_gt : PrimBin
  op_eq : PrimBin
  op_neq : PrimBin
  op_add : PrimBin
  or_bits : PrimBin
  xor_bits : PrimBin
  and_bits : PrimBin
  not_bool : PrimUn
  op_slice : Val → Val → Nat → Solver → Except Error (Val × Solver)
  op_set_slice : Val → Val → Val → Solver → Except Error (Val × Solver)
  op_unsigned : PrimUn
  op_head : PrimUn
  op_tail : PrimUn
  unary : Name → PrimUn
  binary : Name → PrimBin
  variadic : Name → List Val → Solver → LocalFrame → Except Error (Val × Solver × LocalFrame)

/-- Thread the solver through `n` repetitions of a materialization step
(the `(0..(sz-1)).map(..).collect::<Result<_,_>>()` pattern). -/
def threadRepeat (f : Solver → Except Failure (Val × Solver)) :
    Nat → Solver → Except Failure (List Val × Solver)
  | 0, solver => .ok ([], solver)
  | n + 1, solver =>
    match f solver with
    | .error e => .error e
    | .ok (v, solver) =>
      match threadRepeat f n solver with
      | .error e => .error e
      | .ok (vs, solver) => .ok (v :: vs, solver)

/-- Thread the solver through the fields of a struct type
(the `field_types.iter().map(..).collect::<Result<_,_>>()` pattern). -/
def threadFields (f : Ty → Solver → Except Failure (Val × Solver)) :
    List (Name × Ty) → Solver → Except Failure (List (Name × Val) × Solver)
  | [], solver => .ok ([], solver)
  | (fld, ty) :: rest, solver =>
    match f ty solver with
    | .error e => .error e
    | .ok (v, solver) =>
      match threadFields f rest solver with
      | .error e => .error e
      | .ok (vs, solver) => .ok ((fld, v) :: vs, solver)

/-- Declare a fresh SMT constant of the given sort and return it as a
symbolic value (the shared tail of `symbolic`). -/
def declareFresh (smt_ty : SmtTy) (solver : Solver) : Except Failure (Val × Solver) :=
  let (sym, solver) := solver.fresh
  .ok (.symbolic sym, solver.add (.declareConst sym smt_ty))

/-- `symbolic`: create a symbolic value of a specified type. Can return a
concrete value if the type only permits a single value (unit, zero-length
bitvector); compound types become concrete structures over symbolic
fields; enums become a constrained 8-bit bitvector; unrepresentable types
become `Poison`. The fuel bounds the recursion depth through the struct
registry (unbounded in Rust). -/
def symbolic : Nat → Ty → SharedState → Solver → Except Failure (Val × Solver)
  | 0, _, _, _ => .error (.panic ("recursion depth exceeded"))
  | fuel + 1, ty, shared_state, solver =>
    match ty with
    | .unit => .ok (.unit, solver)
    | .bits 0 => .ok (.bits 0 0, solver)
    | .i64 => declareFresh (.bitVec 64) solver
    | .i128 => declareFresh (.bitVec 128) solver
    | .bits sz => declareFresh (.bitVec sz) solver
    | .bool => declareFresh .bool solver
    | .bit => declareFresh (.bitVec 1) solver
    | .struct name =>
      match shared_state.structs name with
      | some field_types =>
        match threadFields (fun ty s => symbolic fuel ty shared_state s) field_types solver with
        | .error e => .error e
        | .ok (field_values, solver) => .ok (.struct field_values, solver)
      | none => .error (.err (.unreachable ("Struct does not appear to exist!")))
    | .enum name =>
      match shared_state.enums name with
      | some members =>
        let enum_size := members.length
        let (sym, solver) := solver.fresh
        let solver := solver.add (.declareConst sym (.bitVec 8))
        let solver := solver.add (.assert (.bvult (.var sym) (.bits8 (enum_size % 256))))
        .ok (.symbolic sym, solver)
      | none => .error (.panic ("enum is not in the enums registry"))
    | .fixedVector sz ty =>
      -- Rust `sz - 1` is a checked u32 subtraction: at sz = 0 it underflows,
      -- which is a panic (a release build would instead wrap and attempt
      -- 2^32 - 1 materializations); either way size 0 is not a successful
      -- empty vector, so the underflow is modelled as the panic.
      if sz = 0 then .error (.panic ("attempt to subtract with overflow"))
      else
        match threadRepeat (fun s => symbolic fuel ty shared_state s) (sz - 1) solver with
        | .error e => .error e
        | .ok (values, solver) => .ok (.vector values, solver)
    | _ => .ok (.poison, solver)

/-- `get_and_initialize`: read a binding slot; the first read of an
`Uninit` slot materializes a fresh symbolic value of the slot's type and
writes `Init` back. -/
def get_and_init (fuel : Nat) (v : Name) (vars : Bindings) (shared_state : SharedState)
    (solver : Solver) : Except Failure (Option Val × Bindings × Solver) :=
  match alget vars v with
  | some (.uninit ty) =>
    match symbolic fuel ty shared_state solver with
    | .error e => .error e
    | .ok (sym, solver) => .ok (some sym, alinsert vars v (.init sym), solver)
  | some (.init value) => .ok (some value, vars, solver)
  | none => .ok (none, vars, solver)

/-- `get_id_and_initialize`: resolve an identifier through locals,
registers (emitting a `ReadReg` event), lets, then enum members; an
unbound identifier is a panic (a compiler bug, not a runtime error). -/
def get_id_and_init (fuel : Nat) (id : Name) (local_state : LocalState)
    (shared_state : SharedState) (solver : Solver) (accessor : List Accessor) :
    Except Failure (Val × LocalState × Solver) :=
  match get_and_init fuel id local_state.vars shared_state solver with
  | .error e => .error e
  | .ok (some value, vars, solver) => .ok (value, { local_state with vars := vars }, solver)
  | .ok (none, vars, solver) =>
    let local_state := { local_state with vars := vars }
    match get_and_init fuel id local_state.regs shared_state solver with
    | .error e => .error e
    | .ok (some value, regs, solver) =>
      let solver := solver.addEvent (.readReg id accessor value)
      .ok (value, { local_state with regs := regs }, solver)
    | .ok (none, regs, solver) =>
      let local_state := { local_state with regs := regs }
      match get_and_init fuel id local_state.lets shared_state solver with
      | .error e => .error e
      | .ok (some value, lets, solver) => .ok (value, { local_state with lets := lets }, solver)
      | .ok (none, lets, solver) =>
        let local_state := { local_state with lets := lets }
        match shared_state.enum_members id with
        | some position => .ok (.bits 8 (position % 256), local_state, solver)
        | none => .error (.panic ("Symbol not found"))

/-- `get_loc_and_initialize`: read through an l-value; only top-level
identifiers are supported (anything else panics). -/
def get_loc_and_init (fuel : Nat) (loc : Loc) (local_state : LocalState)
    (shared_state : SharedState) (solver : Solver) (accessor : List Accessor) :
    Except Failure (Val × LocalState × Solver) :=
  match loc with
  | .id id => get_id_and_init fuel id local_state shared_state solver accessor
  | _ => .error (.panic ("Cannot get_loc_and_initialize"))

/-- Lift an external primop result into the evaluator's result type. -/
def liftPrim (r : Except Error (Val × Solver)) (local_state : LocalState) :
    Except Failure (Val × LocalState × Solver) :=
  match r with
  | .error e => .error (.err e)
  | .ok (v, solver) => .ok (v, local_state, solver)

/-- `args[i]` on the evaluated argument vector: out of bounds is a Rust
panic. -/
def idxVal (vals : List Val) (i : Nat) : Except Failure Val :=
  match vals.get? i with
  | some v => .ok v
  | none => .error (.panic ("index out of bounds"))

/-- Thread the local state and solver through a list of expression
evaluations in order (the `args.iter().map(..).collect()` pattern). -/
def threadExps (f : Exp → LocalState → Solver → Except Failure (Val × LocalState × Solver)) :
    List Exp → LocalState → Solver → Except Failure (List Val × LocalState × Solver)
  | [], local_state, solver => .ok ([], local_state, solver)
  | e :: rest, local_state, solver =>
    match f e local_state solver with
    | .error err => .error err
    | .ok (v, local_state, solver) =>
      match threadExps f rest local_state solver with
      | .error err => .error err
      | .ok (vs, local_state, solver) => .ok (v :: vs, local_state, solver)

/-- `eval_exp_with_accessor`: the recursive expression evaluator. It
side-effects on the local state (slot materialization) and the solver
(fresh variables, `ReadReg` events); `Field` accesses push onto the
accessor path that a chained register read records. -/
def eval_exp_with_accessor : Nat → Exp → LocalState → SharedState → Ext → Solver →
    List Accessor → Except Failure (Val × LocalState × Solver)
  | 0, _, _, _, _, _, _ => .error (.panic ("recursion depth exceeded"))
  | fuel + 1, exp, local_state, shared_state, ext, solver, accessor =>
    match exp with
    | .id id => get_id_and_init fuel id local_state shared_state solver accessor
    | .i64 n => .ok (.i64 n, local_state, solver)
    | .i128 n => .ok (.i128 n, local_state, solver)
    | .unit => .ok (.unit, local_state, solver)
    | .bool b => .ok (.bool b, local_state, solver)
    | .bits w v => .ok (.bits w v, local_state, solver)
    | .string s => .ok (.string s, local_state, solver)
    | .undefined ty =>
      match symbolic fuel ty shared_state solver with
      | .error e => .error e
      | .ok (v, solver) => .ok (v, local_state, solver)
    | .call op args =>
      match threadExps (fun e ls s => eval_exp_with_accessor fuel e ls shared_state ext s []) args
          local_state solver with
      | .error e => .error e
      | .ok (vals, local_state, solver) =>
        match op with
        | .lt =>
          match idxVal vals 0, idxVal vals 1 with
          | .ok a0, .ok a1 => liftPrim (ext.op_lt a0 a1 solver) local_state
          | .error e, _ => .error e
          | _, .error e => .error e
        | .gt =>
          match idxVal vals 0, idxVal vals 1 with
          | .ok a0, .ok a1 => liftPrim (ext.op_gt a0 a1 solver) local_state
          | .error e, _ => .error e
          | _, .error e => .error e
        | .eq =>
          match idxVal vals 0, idxVal vals 1 with
          | .ok a0, .ok a1 => liftPrim (ext.op_eq a0 a1 solver) local_state
          | .error e, _ => .error e
          | _, .error e => .error e
        | .neq =>
          match idxVal vals 0, idxVal vals 1 with
          | .ok a0, .ok a1 => liftPrim (ext.op_neq a0 a1 solver) local_state
          | .error e, _ => .error e
          | _, .error e => .error e
        | .add =>
          match idxVal vals 0, idxVal vals 1 with
          | .ok a0, .ok a1 => liftPrim (ext.op_add a0 a1 solver) local_state
          | .error e, _ => .error e
          | _, .error e => .error e
        | .bvor =>
          match idxVal vals 0, idxVal vals 1 with
          | .ok a0, .ok a1 => liftPrim (ext.or_bits a0 a1 solver) local_state
          | .error e, _ => .error e
          | _, .error e => .error e
        | .bvxor =>
          match idxVal vals 0, idxVal vals 1 with
          | .ok a0, .ok a1 => liftPrim (ext.xor_bits a0 a1 solver) local_state
          | .error e, _ => .error e
          | _, .error e => .error e
        | .bvand =>
          match idxVal vals 0, idxVal vals 1 with
          | .ok a0, .ok a1 => liftPrim (ext.and_bits a0 a1 solver) local_state
          | .error e, _ => .error e
          | _, .error e => .error e
        | .not =>
          match idxVal vals 0 with
          | .ok a0 => liftPrim (ext.not_bool a0 solver) local_state
          | .error e => .error e
        | .slice len =>
          match idxVal vals 0, idxVal vals 1 with
          | .ok a0, .ok a1 => liftPrim (ext.op_slice a0 a1 len solver) local_state
          | .error e, _ => .error e
          | _, .error e => .error e
        | .setSlice =>
          match idxVal vals 0, idxVal vals 1, idxVal vals 2 with
          | .ok a0, .ok a1, .ok a2 => liftPrim (ext.op_set_slice a0 a1 a2 solver) local_state
          | .error e, _, _ => .error e
          | _, .error e, _ => .error e
          | _, _, .error e => .error e
        | .unsigned _ =>
          match idxVal vals 0 with
          | .ok a0 => liftPrim (ext.op_unsigned a0 solver) local_state
          | .error e => .error e
        | .head =>
          match idxVal vals 0 with
          | .ok a0 => liftPrim (ext.op_head a0 solver) local_state
          | .error e => .error e
        | .tail =>
          match idxVal vals 0 with
          | .ok a0 => liftPrim (ext.op_tail a0 solver) local_state
          | .error e => .error e
        | _ => .error (.err .unimplemented)
    | .kind ctor_a e =>
      match eval_exp_with_accessor fuel e local_state shared_state ext solver [] with
      | .error err => .error err
      | .ok (v, local_state, solver) =>
        match v with
        | .ctor ctor_b _ => .ok (.bool (decide (ctor_a ≠ ctor_b)), local_state, solver)
        | _ => .error (.err (.type ("Kind check on non-constructor")))
    | .unwrap ctor_a e =>
      match eval_exp_with_accessor fuel e local_state shared_state ext solver [] with
      | .error err => .error err
      | .ok (v, local_state, solver) =>
        match v with
        | .ctor ctor_b inner =>
          if ctor_a = ctor_b then .ok (inner, local_state, solver)
          else .error (.err (.type ("Constructors did not match in unwrap")))
        | _ => .error (.err (.type ("Tried to unwrap non-constructor")))
    | .field e fld =>
      match eval_exp_with_accessor fuel e local_state shared_state ext solver
          (accessor ++ [.field fld]) with
      | .error err => .error err
      | .ok (v, local_state, solver) =>
        match v with
        | .struct struct_value =>
          match alget struct_value fld with
          | some field_value => .ok (field_value, local_state, solver)
          | none => .error (.panic ("No field"))
        | _ => .error (.panic ("Struct expression did not evaluate to a struct"))
    | _ => .error (.panic ("Could not evaluate expression"))

/-- `eval_exp`: evaluate with an empty accessor path. -/
def eval_exp (fuel : Nat) (exp : Exp) (local_state : LocalState) (shared_state : SharedState)
    (ext : Ext) (solver : Solver) : Except Failure (Val × LocalState × Solver) :=
  eval_exp_with_accessor fuel exp local_state shared_state ext solver []

/-- `assign_with_accessor`: write a value through an l-value. A top-level
identifier that is a declared local or the distinguished RETURN name is a
silent local write; otherwise it is a register write that emits a
`WriteReg` event. Field l-values copy-update the struct and recurse with
`Field(fld)` as the accessor path. -/
def assign_with_accessor (fuel : Nat) : Loc → Val → LocalState → SharedState → Solver →
    List Accessor → Except Failure (LocalState × Solver)
  | .id id, v, local_state, _, solver, accessor =>
    if alcontains local_state.vars id || id == RETURN then
      .ok ({ local_state with vars := alinsert local_state.vars id (.init v) }, solver)
    else
      let solver := solver.addEvent (.writeReg id accessor v)
      .ok ({ local_state with regs := alinsert local_state.regs id (.init v) }, solver)
  | .field loc fld, v, local_state, shared_state, solver, _ =>
    let accessor : List Accessor := [.field fld]
    match get_loc_and_init fuel loc local_state shared_state solver accessor with
    | .error e => .error e
    | .ok (cur, local_state, solver) =>
      match cur with
      | .struct field_values =>
        match alget field_values fld with
        | some _ =>
          let field_values := alinsert field_values fld v
          assign_with_accessor fuel loc (.struct field_values) local_state shared_state solver
            accessor
        | none => .error (.panic ("Invalid field assignment"))
      | _ => .error (.panic ("Cannot assign struct to non-struct"))
  | .addr _, _, _, _, _, _ => .error (.panic ("Bad assign"))

/-- `assign`: write through an l-value with an empty accessor path. -/
def assign (fuel : Nat) (loc : Loc) (v : Val) (local_state : LocalState)
    (shared_state : SharedState) (solver : Solver) : Except Failure (LocalState × Solver) :=
  assign_with_accessor fuel loc v local_state shared_state solver []

/-- The body of the return continuation captured at a call site: restore
the caller's pc (plus one), local variables, instruction slice, and stack,
then assign the return value to the call destination. -/
def applyCont (fuel : Nat) (caller : Frame) (loc : Loc) (ret : Val) (frame : LocalFrame)
    (shared_state : SharedState) (solver : Solver) : Except Failure (LocalFrame × Solver) :=
  let frame := { frame with
    pc := caller.pc + 1
    local_state := { frame.local_state with vars := caller.local_state.vars }
    instrs := caller.instrs
    stack := caller.stack }
  match assign fuel loc ret frame.local_state shared_state solver with
  | .error e => .error e
  | .ok (local_state, solver) => .ok ({ frame with local_state := local_state }, solver)

/-- Bind formal parameters to evaluated arguments by position; an argument
beyond the parameter list is a Rust index panic. -/
def bindParams : List (Name × Ty) → List Val → Bindings → Except Failure Bindings
  | _, [], vars => .ok vars
  | [], _ :: _, _ => .error (.panic ("index out of bounds"))
  | p :: ps, v :: vs, vars => bindParams ps vs (alinsert vars p.1 (.init v))

/-- Read the RETURN slot at `End`, materializing it if still `Uninit`. -/
def read_return (fuel : Nat) (uval : UVal) (shared_state : SharedState) (solver : Solver) :
    Except Failure (Val × Solver) :=
  match uval with
  | .uninit ty => symbolic fuel ty shared_state solver
  | .init value => .ok (value, solver)

/-- A `Task` is a suspended point of the symbolic execution: a frozen
frame, a solver checkpoint, and an optional pending definition added to
the solver when the task is resumed. -/
abbrev Task := Frame × Checkpoint × Option SmtDef

/-- Outcome of one iteration of the interpreter loop: either the loop
continues with updated state, or the path finished with a value. -/
inductive StepOut where
  | going (queue : List Task) (frame : LocalFrame) (solver : Solver)
  | finished (v : Val) (frame : LocalFrame) (queue : List Task) (solver : Solver)

/-- One iteration of the interpreter loop of `run`: dispatch on the
instruction at pc (pc past the end of the instruction list finishes the
path with `Unit`). `sat` is the `check_sat_with(..).is_sat()` oracle; the
worker's task queue is threaded for symbolic forks. -/
def step (fuel : Nat) (sat : Solver → SmtExp → Bool) (shared_state : SharedState) (ext : Ext)
    (queue : List Task) (frame : LocalFrame) (solver : Solver) : Except Failure StepOut :=
  match frame.instrs.get? frame.pc with
  | none => .ok (.finished .unit frame queue solver)
  | some instr =>
    match instr with
    | .decl v ty =>
      .ok (.going queue
        { frame with
          local_state := { frame.local_state with
            vars := alinsert frame.local_state.vars v (.uninit ty) }
          pc := frame.pc + 1 }
        solver)
    | .init var _ exp =>
      match eval_exp fuel exp frame.local_state shared_state ext solver with
      | .error e => .error e
      | .ok (value, local_state, solver) =>
        .ok (.going queue
          { frame with
            local_state := { local_state with vars := alinsert local_state.vars var (.init value) }
            pc := frame.pc + 1 }
          solver)
    | .jump exp target loc =>
      match eval_exp fuel exp frame.local_state shared_state ext solver with
      | .error e => .error e
      | .ok (value, local_state, solver) =>
        let frame := { frame with local_state := local_state }
        match value with
        | .symbolic v =>
          let test_true := SmtExp.var v
          let test_false := SmtExp.not (.var v)
          let can_be_true := sat solver test_true
          let can_be_false := sat solver test_false
          if can_be_true && can_be_false then
            let solver := solver.addEvent (.branch frame.branches loc)
            let frame := { frame with branches := frame.branches + 1 }
            let point := checkpoint solver
            let frozen := Frame.withPc (frame.pc + 1) (freeze_frame frame)
            let queue := (frozen, point, some (SmtDef.assert test_false)) :: queue
            let solver := solver.add (.assert test_true)
            .ok (.going queue { frame with pc := target } solver)
          else if can_be_true then
            .ok (.going queue { frame with pc := target } (solver.add (.assert test_true)))
          else if can_be_false then
            .ok (.going queue { frame with pc := frame.pc + 1 } (solver.add (.assert test_false)))
          else
            .error (.err .dead)
        | .bool jump =>
          if jump then .ok (.going queue { frame with pc := target } solver)
          else .ok (.going queue { frame with pc := frame.pc + 1 } solver)
        | _ => .error (.err (.type ("Jump on non boolean")))
    | .goto target => .ok (.going queue { frame with pc := target } solver)
    | .copy loc exp =>
      match eval_exp fuel exp frame.local_state shared_state ext solver with
      | .error e => .error e
      | .ok (value, local_state, solver) =>
        match assign fuel loc value local_state shared_state solver with
        | .error e => .error e
        | .ok (local_state, solver) =>
          .ok (.going queue { frame with local_state := local_state, pc := frame.pc + 1 } solver)
    | .primopUnary loc f arg =>
      match eval_exp fuel arg frame.local_state shared_state ext solver with
      | .error e => .error e
      | .ok (arg, local_state, solver) =>
        match ext.unary f arg solver with
        | .error e => .error (.err e)
        | .ok (value, solver) =>
          match assign fuel loc value local_state shared_state solver with
          | .error e => .error e
          | .ok (local_state, solver) =>
            .ok (.going queue { frame with local_state := local_state, pc := frame.pc + 1 } solver)
    | .primopBinary loc f arg1 arg2 =>
      match eval_exp fuel arg1 frame.local_state shared_state ext solver with
      | .error e => .error e
      | .ok (arg1, local_state, solver) =>
        match eval_exp fuel arg2 local_state shared_state ext solver with
        | .error e => .error e
        | .ok (arg2, local_state, solver) =>
          match ext.binary f arg1 arg2 solver with
          | .error e => .error (.err e)
          | .ok (value, solver) =>
            match assign fuel loc value local_state shared_state solver with
            | .error e => .error e
            | .ok (local_state, solver) =>
              .ok (.going queue { frame with local_state := local_state, pc := frame.pc + 1 }
                solver)
    | .primopVariadic loc f args =>
      match threadExps (fun e ls s => eval_exp fuel e ls shared_state ext s) args
          frame.local_state solver with
      | .error e => .error e
      | .ok (vals, local_state, solver) =>
        let frame := { frame with local_state := local_state }
        match ext.variadic f vals solver frame with
        | .error e => .error (.err e)
        | .ok (value, solver, frame) =>
          match assign fuel loc value frame.local_state shared_state solver with
          | .error e => .error e
          | .ok (local_state, solver) =>
            .ok (.going queue { frame with local_state := local_state, pc := frame.pc + 1 } solver)
    | .call loc _ f args =>
      match shared_state.functions f with
      | none =>
        if f == INTERNAL_VECTOR_INIT && args.length == 1 then
          match args.get? 0 with
          | none => .error (.panic ("index out of bounds"))
          | some arg0 =>
            match eval_exp fuel arg0 frame.local_state shared_state ext solver with
            | .error e => .error e
            | .ok (arg, local_state, solver) =>
              match loc with
              | .id v =>
                match arg, alget local_state.vars v with
                | .i64 len, some (.uninit (.vector _)) =>
                  match assign fuel loc (.vector (List.replicate ((len % (2 : Int) ^ 64).toNat)
                      .poison)) local_state shared_state solver with
                  | .error e => .error e
                  | .ok (local_state, solver) =>
                    .ok (.going queue
                      { frame with local_state := local_state, pc := frame.pc + 1 } solver)
                | _, _ => .error (.err (.type ("internal_vector_init")))
              | _ => .error (.err (.type ("internal_vector_init")))
        else if f == INTERNAL_VECTOR_UPDATE then
          .ok (.going queue { frame with pc := frame.pc + 1 } solver)
        else if f == SAIL_EXIT then
          .error (.err .exit)
        else if shared_state.union_ctors.contains f then
          if args.length == 1 then
            match args.get? 0 with
            | none => .error (.panic ("index out of bounds"))
            | some arg0 =>
              match eval_exp fuel arg0 frame.local_state shared_state ext solver with
              | .error e => .error e
              | .ok (arg, local_state, solver) =>
                match assign fuel loc (.ctor f arg) local_state shared_state solver with
                | .error e => .error e
                | .ok (local_state, solver) =>
                  .ok (.going queue
                    { frame with local_state := local_state, pc := frame.pc + 1 } solver)
          else .error (.panic ("assertion failed"))
        else .error (.panic ("Attempted to call non-existent function"))
      | some (params, _, instrs) =>
        match threadExps (fun e ls s => eval_exp fuel e ls shared_state ext s) args
            frame.local_state solver with
        | .error e => .error e
        | .ok (vals, local_state, solver) =>
          let frame := { frame with local_state := local_state }
          let caller := freeze_frame frame
          let frame := { frame with stack := .cont caller loc }
          let frame := { frame with local_state := { frame.local_state with vars := [] } }
          match bindParams params vals frame.local_state.vars with
          | .error e => .error e
          | .ok vars =>
            .ok (.going queue
              { frame with
                local_state := { frame.local_state with vars := vars }
                pc := 0
                instrs := instrs }
              solver)
    | .end_ =>
      match alget frame.local_state.vars RETURN with
      | none => .error (.panic ("Reached end without assigning to return"))
      | some uval =>
        match read_return fuel uval shared_state solver with
        | .error e => .error e
        | .ok (value, solver) =>
          match frame.stack with
          | .none => .ok (.finished value frame queue solver)
          | .cont caller loc =>
            match applyCont fuel caller loc value frame shared_state solver with
            | .error e => .error e
            | .ok (frame, solver) => .ok (.going queue frame solver)
    | .monomorphize _ => .ok (.going queue { frame with pc := frame.pc + 1 } solver)

/-- The interpreter loop of `run`, iterated up to `steps` times; `none`
means the step budget ran out (the Rust loop has no such bound). -/
def runLoop (sat : Solver → SmtExp → Bool) (shared_state : SharedState) (ext : Ext) :
    Nat → Nat → List Task → LocalFrame → Solver →
    Except Failure (Option (Val × LocalFrame × List Task × Solver))
  | 0, _, _, _, _ => .ok none
  | steps + 1, fuel, queue, frame, solver =>
    match step fuel sat shared_state ext queue frame solver with
    | .error e => .error e
    | .ok (.finished v f q s) => .ok (some (v, f, q, s))
    | .ok (.going q f s) => runLoop sat shared_state ext steps fuel q f s

/-- `run`: unfreeze the task's frame and interpret instructions until the
path ends, forking onto the queue at feasible symbolic branches. -/
def run (sat : Solver → SmtExp → Bool) (shared_state : SharedState) (ext : Ext)
    (steps fuel : Nat) (queue : List Task) (frame : Frame) (solver : Solver) :
    Except Failure (Option (Val × LocalFrame × List Task × Solver)) :=
  runLoop sat shared_state ext steps fuel queue (unfreeze_frame frame) solver

/-- Debug rendering of an error (`format!("Error {:?}", err)`). -/
def formatError : Error → String
  | .unreachable msg => "Error Unreachable " ++ msg
  | .type msg => "Error Type " ++ msg
  | .unimplemented => "Error Unimplemented"
  | .dead => "Error Dead"
  | .exit => "Error Exit"
  | .symbolic => "Error Symbolic"

/-- `trace_collector`: deliver a finished path to the collected queue. A
`Dead` path is silently dropped; any other error is pushed as an `Err`
entry; a successful path pushes the textual rendering of the simplified
solver event log. `simplifyF` and `writeEventsF` stand for the external
`simplify::simplify` and `simplify::write_events`. -/
def trace_collector (simplifyF : List Event → List Event) (writeEventsF : List Event → String)
    (result : Except Error (Val × LocalFrame)) (solver : Solver)
    (collected : List (Except String String)) : List (Except String String) :=
  match result with
  | .ok _ => collected ++ [.ok (writeEventsF (simplifyF solver.events))]
  | .error .dead => collected
  | .error err => collected ++ [.error (formatError err)]

/-- An instruction carrying an optional label (`LabeledInstr`). -/
inductive LabeledInstr where
  | labeled (l : Nat) (i : Instr)
  | unlabeled (i : Instr)

/-- Strip the label from a labeled instruction (`LabeledInstr::strip`). -/
def LabeledInstr.strip : LabeledInstr → Instr
  | .labeled _ i => i
  | .unlabeled i => i

/-- Modelled from the spec: `label_instrs` (ir/mod.rs, not under src/)
labels every instruction of the sequence with its index. -/
def label_instrs (instrs : List Instr) : List LabeledInstr :=
  instrs.enum.map (fun p => .labeled p.1 p.2)

/-- The jump targets named by one instruction. -/
def instr_targets : Instr → List Nat
  | .goto target => [target]
  | .jump _ target _ => [target]
  | _ => []

/-- Keep a label only when it is one of the collected jump targets. -/
def prune_one (targets : List Nat) : LabeledInstr → LabeledInstr
  | .labeled l i => if targets.contains l then .labeled l i else .unlabeled i
  | .unlabeled i => .unlabeled i

/-- Modelled from the spec: `prune_labels` (ir/mod.rs, not under src/)
keeps only the labels that are targets of a `Goto` or `Jump` and drops the
rest, leaving the underlying instructions untouched. -/
def prune_labels (instrs : List LabeledInstr) : List LabeledInstr :=
  instrs.map (prune_one (instrs.foldl (fun acc li => acc ++ instr_targets li.strip) []))

/-- Modelled from the spec: `unlabel_instrs` (ir/mod.rs, not under src/)
strips all labels from the sequence. -/
def unlabel_instrs (instrs : List LabeledInstr) : List Instr :=
  instrs.map LabeledInstr.strip

/-- The fallback branch of `linearize` (linearize.rs): when the CFG is
cyclic and the topological sort fails, the labeled form built by
`prune_labels(label_instrs(instrs))` is unlabeled and returned. -/
def linearize_cyclic (instrs : List Instr) : List Instr :=
  unlabel_instrs (prune_labels (label_instrs instrs))

/-- Messages a worker can receive on its poke channel (`Response`). -/
inductive Response where
  | poke
  | kill
deriving DecidableEq, Repr

/-- Activity report a worker sends the coordinator; the Rust `Idle`
variant also carries the worker's poke channel, identified here by the
worker id. -/
inductive Activity where
  | busy (tid : Nat)
  | idle (tid : Nat)
deriving DecidableEq, Repr

/-- Pointwise update of a function-valued table (the per-worker vectors of
the coordinator). -/
def updf {α : Type} (f : Nat → α) (k : Nat) (v : α) : Nat → α :=
  fun x => if x = k then v else f x

/-- The coordinator's state in `start_multi`: per-worker idleness
counters, each worker's last activity message, and (for the model) the
per-worker sequence of responses sent on the poke channels. -/
structure CoordState where
  counters : Nat → Nat
  lastMsg : Nat → Activity
  sent : Nat → List Response

/-- Process one drained activity message: `Busy` resets the worker's
counter, `Idle` increments it; either way the last message is recorded. -/
def processMsg (st : CoordState) (a : Activity) : CoordState :=
  match a with
  | .busy tid =>
    { st with lastMsg := updf st.lastMsg tid (.busy tid), counters := updf st.counters tid 0 }
  | .idle tid =>
    { st with
      lastMsg := updf st.lastMsg tid (.idle tid)
      counters := updf st.counters tid (st.counters tid + 1) }

/-- Drain the inbound activity channel (the inner `try_recv` loop). -/
def drain (st : CoordState) (msgs : List Activity) : CoordState :=
  msgs.foldl processMsg st

/-- The quiescence test: no per-worker counter is below 2. -/
def quiescentb (n : Nat) (st : CoordState) : Bool :=
  (List.range n).all (fun t => 2 ≤ st.counters t)

/-- At quiescence, send `Kill` on the channel stored in each worker's last
message; a `Busy` last message at this point is a Rust panic. -/
def killAll (st : CoordState) : Nat → Except Failure CoordState
  | 0 => .ok st
  | k + 1 =>
    match killAll st k with
    | .error e => .error e
    | .ok st =>
      match st.lastMsg k with
      | .idle t => .ok { st with sent := updf st.sent t (st.sent t ++ [.kill]) }
      | .busy _ => .error (.panic ("Found busy thread when quiescent"))

/-- When not quiescent, poke every worker whose last message was `Idle`
and reset its counter to 1. -/
def pokeAll (st : CoordState) : Nat → CoordState
  | 0 => st
  | k + 1 =>
    match (pokeAll st k).lastMsg k with
    | .idle t =>
      { pokeAll st k with
        sent := updf (pokeAll st k).sent t ((pokeAll st k).sent t ++ [.poke])
        counters := updf (pokeAll st k).counters t 1 }
    | .busy _ => pokeAll st k

/-- One cycle of the coordinator loop in `start_multi`: drain the activity
channel, test quiescence; if quiescent kill every worker and terminate,
otherwise poke the idle workers and continue. -/
def coordCycle (n : Nat) (st : CoordState) (msgs : List Activity) :
    Except Failure (CoordState × Bool) :=
  if quiescentb n (drain st msgs) then
    match killAll (drain st msgs) n with
    | .error e => .error e
    | .ok st => .ok (st, true)
  else
    .ok (pokeAll (drain st msgs) n, false)

/-- The coordinator loop, driven by the per-cycle drained message lists;
returns `true` when it reached quiescence and killed the workers within
the given cycles. -/
def coordRun (n : Nat) : CoordState → List (List Activity) → Except Failure (CoordState × Bool)
  | st, [] => .ok (st, false)
  | st, msgs :: rest =>
    match coordCycle n st msgs with
    | .error e => .error e
    | .ok (st, true) => .ok (st, true)
    | .ok (st, false) => coordRun n st rest

/-- The coordinator's initial state: all counters 0, all last messages
`Busy(0)`, nothing sent. -/
def coordInit : CoordState :=
  { counters := fun _ => 0, lastMsg := fun _ => .busy 0, sent := fun _ => [] }

/-- Invariant of the coordinator state: a worker whose counter is
positive has an `Idle` last message, `Idle` messages are stored at the
index of their payload, and only pokes have been sent so far. -/
def coordInv (st : CoordState) : Prop :=
  (∀ t, 1 ≤ st.counters t → st.lastMsg t = .idle t)
  ∧ (∀ t t', st.lastMsg t = .idle t' → t' = t)
  ∧ (∀ t, ∀ r ∈ st.sent t, r = Response.poke)

/-- A fresh solver context with no definitions or events. -/
def solver0 : Solver := { nextSym := 0, defs := [], events := [] }

/-- A satisfiability oracle that reports everything satisfiable. -/
def satTrue : Solver → SmtExp → Bool := fun _ _ => true

/-- An empty static context. -/
def ssEmpty : SharedState :=
  { functions := fun _ => none
    structs := fun _ => none
    enums := fun _ => none
    enum_members := fun _ => none
    union_ctors := [] }

/-- An unary primop instance that always fails. -/
def failUn : PrimUn := fun _ _ => .error .unimplemented

/-- A binary primop instance that always fails. -/
def failBin : PrimBin := fun _ _ _ => .error .unimplemented

/-- An external primop environment in which every primop fails; the
concrete programs below never reach a primop. -/
def extNone : Ext :=
  { op_lt := failBin
    op_gt := failBin
    op_eq := failBin
    op_neq := failBin
    op_add := failBin
    or_bits := failBin
    xor_bits := failBin
    and_bits := failBin
    not_bool := failUn
    op_slice := fun _ _ _ _ => .error .unimplemented
    op_set_slice := fun _ _ _ _ => .error .unimplemented
    op_unsigned := failUn
    op_head := failUn
    op_tail := failUn
    unary := fun _ => failUn
    binary := fun _ => failBin
    variadic := fun _ _ _ _ => .error .unimplemented }

/-- A one-instruction program jumping on a symbolic local. -/
def frameJ : LocalFrame :=
  { pc := 0
    branches := 0
    backjumps := 0
    local_state := { vars := [(5, .init (.symbolic 0))], regs := [], lets := [] }
    memory := []
    instrs := [.jump (.id 5) 3 "L"]
    stack := .none }

/-- A static context exposing the single known function 10 with no
parameters, returning unit, with body `End`. -/
def ssCall : SharedState :=
  { ssEmpty with
    functions := fun f => if f = 10 then some ([], Ty.unit, [Instr.end_]) else none }

/-- A call-site frame invoking function 10 into the RETURN slot. -/
def frameCall : LocalFrame :=
  { pc := 0
    branches := 0
    backjumps := 0
    local_state := { vars := [], regs := [], lets := [] }
    memory := []
    instrs := [.call (.id RETURN) false 10 []]
    stack := .none }

/-- The callee frame about to execute `End` with the continuation
captured by `frameCall`. -/
def frameCallee : LocalFrame :=
  { pc := 0
    branches := 0
    backjumps := 0
    local_state := { vars := [(RETURN, .init (.bool true))], regs := [], lets := [] }
    memory := []
    instrs := [.end_]
    stack := .cont (freeze_frame frameCall) (.id RETURN) }

end Isla

namespace Isla

theorem alget_alinsert_self {α : Type} (l : List (Name × α)) (k : Name) (x : α) :
    alget (alinsert l k x) k = some x := by
  simp [alget, alinsert]

theorem freeze_pc (f : LocalFrame) : (freeze_frame f).pc = f.pc := rfl

theorem freeze_local_state (f : LocalFrame) : (freeze_frame f).local_state = f.local_state := rfl

theorem freeze_instrs (f : LocalFrame) : (freeze_frame f).instrs = f.instrs := rfl

theorem freeze_stack (f : LocalFrame) : (freeze_frame f).stack = f.stack := rfl

theorem threadRepeat_length (f : Solver → Except Failure (Val × Solver)) :
    ∀ (n : Nat) (s s' : Solver) (l : List Val),
      threadRepeat f n s = .ok (l, s') → l.length = n := by
  intro n
  induction n with
  | zero =>
    intro s s' l h
    simp only [threadRepeat, Except.ok.injEq, Prod.mk.injEq] at h
    rw [← h.1]
    rfl
  | succ n ih =>
    intro s s' l h
    unfold threadRepeat at h
    cases hf : f s with
    | error e => rw [hf] at h; simp at h
    | ok p =>
      obtain ⟨v, s1⟩ := p
      rw [hf] at h
      simp only [] at h
      cases hr : threadRepeat f n s1 with
      | error e => rw [hr] at h; simp at h
      | ok q =>
        obtain ⟨vs, s2⟩ := q
        rw [hr] at h
        simp only [Except.ok.injEq, Prod.mk.injEq] at h
        rw [← h.1]
        simp [ih s1 s2 vs hr]

/-- C6: freezing the result of unfreezing a frame yields a frame
observationally equal to the original Frame: the same pc, branches and
backjumps counters, local state, memory, instruction slice, and return
stack. -/
theorem freeze_unfreeze_roundtrip (F : Frame) : freeze_frame (unfreeze_frame F) = F := by
  cases F
  rfl

/-- C5: whenever materializing a FixedVector(size, elem) type produces a
value, that value is a Vector of exactly size - 1 recursively
materialized elements; in particular a FixedVector of size 1
materializes as the empty vector, and at size 0 the u32 subtraction
size - 1 underflows, so the materializer panics instead of producing a
vector. -/
theorem symbolic_fixedVector_size :
    (∀ (fuel sz : Nat) (ty : Ty) (ss : SharedState) (solver solver' : Solver) (v : Val),
      symbolic fuel (.fixedVector sz ty) ss solver = .ok (v, solver') →
      ∃ l, v = .vector l ∧ l.length = sz - 1)
    ∧ (∀ (fuel : Nat) (ty : Ty) (ss : SharedState) (solver : Solver),
      symbolic (fuel + 1) (.fixedVector 1 ty) ss solver = .ok (.vector [], solver))
    ∧ (∀ (fuel : Nat) (ty : Ty) (ss : SharedState) (solver : Solver),
      symbolic (fuel + 1) (.fixedVector 0 ty) ss solver =
        .error (.panic ("attempt to subtract with overflow"))) := by
  refine ⟨?_, ?_, ?_⟩
  · intro fuel sz ty ss solver solver' v h
    cases fuel with
    | zero => simp [symbolic] at h
    | succ fuel =>
      cases sz with
      | zero => exact Except.noConfusion h
      | succ sz =>
        have h' : (match threadRepeat (fun s => symbolic fuel ty ss s) sz solver with
            | .error e => (.error e : Except Failure (Val × Solver))
            | .ok (values, solver) => .ok (.vector values, solver)) = .ok (v, solver') := h
        cases hr : threadRepeat (fun s => symbolic fuel ty ss s) sz solver with
        | error e => rw [hr] at h'; simp at h'
        | ok p =>
          obtain ⟨values, s2⟩ := p
          rw [hr] at h'
          simp only [Except.ok.injEq, Prod.mk.injEq] at h'
          exact ⟨values, h'.1.symm, threadRepeat_length _ _ _ _ _ hr⟩
  · intro fuel ty ss solver
    rfl
  · intro fuel ty ss solver
    rfl

/-- C5 witness: a FixedVector of size 1 over Bool materializes, with no
solver interaction, as the empty vector of length 1 - 1. -/
theorem symbolic_fixedVector_size_witness :
    symbolic 2 (.fixedVector 1 .bool) ssEmpty solver0 = .ok (.vector [], solver0)
    ∧ ∃ l, Val.vector [] = .vector l ∧ l.length = 1 - 1 :=
  ⟨rfl, symbolic_fixedVector_size.1 2 1 .bool ssEmpty solver0 solver0 (.vector []) rfl⟩

/-- C7: the first read of an Uninit slot of an SMT-representable type
materializes a fresh symbolic value, writes Init back into the slot, and
returns it; the second read of the same slot returns that same value with
the bindings and the solver unchanged (no new solver variables). -/
theorem get_and_init_idempotent (fuel : Nat) (v : Name) (ty : Ty) (vars : Bindings)
    (ss : SharedState) (solver solver' : Solver) (sval : Val)
    (hslot : alget vars v = some (.uninit ty))
    (hsym : symbolic fuel ty ss solver = .ok (sval, solver')) :
    get_and_init fuel v vars ss solver = .ok (some sval, alinsert vars v (.init sval), solver')
    ∧ get_and_init fuel v (alinsert vars v (.init sval)) ss solver' =
      .ok (some sval, alinsert vars v (.init sval), solver') := by
  constructor
  · have h1 : get_and_init fuel v vars ss solver =
        (match symbolic fuel ty ss solver with
          | .error e => .error e
          | .ok (sym, solver) => .ok (some sym, alinsert vars v (.init sym), solver)) := by
      unfold get_and_init
      rw [hslot]
    rw [h1, hsym]
  · unfold get_and_init
    rw [alget_alinsert_self]

/-- C7 witness: reading uninitialized local 3 of type Bool declares fresh
SMT variable 0, and reading again returns the same handle with no change
to the solver. -/
theorem get_and_init_idempotent_witness :
    get_and_init 1 3 [(3, .uninit .bool)] ssEmpty solver0 =
      .ok (some (.symbolic 0), alinsert [(3, .uninit .bool)] 3 (.init (.symbolic 0)),
        { nextSym := 1, defs := [.declareConst 0 .bool], events := [] })
    ∧ get_and_init 1 3 (alinsert [(3, .uninit .bool)] 3 (.init (.symbolic 0))) ssEmpty
        { nextSym := 1, defs := [.declareConst 0 .bool], events := [] } =
      .ok (some (.symbolic 0), alinsert [(3, .uninit .bool)] 3 (.init (.symbolic 0)),
        { nextSym := 1, defs := [.declareConst 0 .bool], events := [] }) :=
  get_and_init_idempotent 1 3 .bool [(3, .uninit .bool)] ssEmpty solver0
    { nextSym := 1, defs := [.declareConst 0 .bool], events := [] } (.symbolic 0) rfl rfl

/-- C4: assignment through a top-level identifier l-value: if the
identifier is a declared local or the distinguished RETURN name, the
local slot is updated and the solver (in particular its event log) is
untouched; otherwise the register slot is updated and exactly one
WriteReg event carrying the identifier, accessor path, and value is
emitted. -/
theorem assign_id_local_or_reg (fuel : Nat) (id : Name) (v : Val) (ls : LocalState)
    (ss : SharedState) (solver : Solver) (accessor : List Accessor) :
    ((alcontains ls.vars id || id == RETURN) = true →
      assign_with_accessor fuel (.id id) v ls ss solver accessor =
        .ok ({ ls with vars := alinsert ls.vars id (.init v) }, solver))
    ∧ ((alcontains ls.vars id || id == RETURN) = false →
      assign_with_accessor fuel (.id id) v ls ss solver accessor =
        .ok ({ ls with regs := alinsert ls.regs id (.init v) },
          solver.addEvent (.writeReg id accessor v))) := by
  constructor
  · intro h
    simp [assign_with_accessor, h]
  · intro h
    simp [assign_with_accessor, h]

/-- C4 witness: writing RETURN updates the local slot with no event;
writing the undeclared identifier 7 updates the register slot and emits
exactly one WriteReg event. -/
theorem assign_id_local_or_reg_witness :
    assign_with_accessor 1 (.id RETURN) .unit { vars := [], regs := [], lets := [] } ssEmpty
      solver0 [] =
      .ok ({ vars := alinsert [] RETURN (.init .unit), regs := [], lets := [] }, solver0)
    ∧ assign_with_accessor 1 (.id 7) .unit { vars := [], regs := [], lets := [] } ssEmpty
      solver0 [] =
      .ok ({ vars := [], regs := alinsert [] 7 (.init .unit), lets := [] },
        solver0.addEvent (.writeReg 7 [] .unit)) :=
  ⟨(assign_id_local_or_reg 1 RETURN .unit { vars := [], regs := [], lets := [] } ssEmpty solver0
      []).1 rfl,
    (assign_id_local_or_reg 1 7 .unit { vars := [], regs := [], lets := [] } ssEmpty solver0
      []).2 rfl⟩

/-- C10: running a frame whose pc is at or past the end of its
instruction list terminates normally, returning Unit together with the
current frame rather than an error. -/
theorem run_pc_past_end (sat : Solver → SmtExp → Bool) (ss : SharedState) (ext : Ext)
    (steps fuel : Nat) (queue : List Task) (frame : Frame) (solver : Solver)
    (h : (Frame.instrs frame).length ≤ Frame.pc frame) :
    run sat ss ext (steps + 1) fuel queue frame solver =
      .ok (some (.unit, unfreeze_frame frame, queue, solver)) := by
  unfold run runLoop step
  rw [show (unfreeze_frame frame).instrs.get? (unfreeze_frame frame).pc = none from
    List.get?_eq_none.mpr h]

/-- C10 witness: a frame with pc 2 past its single instruction finishes
with Unit. -/
theorem run_pc_past_end_witness :
    run satTrue ssEmpty extNone 1 1 []
      (.mk 2 0 0 { vars := [], regs := [], lets := [] } [] [.end_] .none) solver0 =
      .ok (some (.unit,
        unfreeze_frame (.mk 2 0 0 { vars := [], regs := [], lets := [] } [] [.end_] .none),
        [], solver0)) :=
  run_pc_past_end satTrue ssEmpty extNone 0 1 []
    (.mk 2 0 0 { vars := [], regs := [], lets := [] } [] [.end_] .none) solver0 (by decide)

/-- C8: the trace collector drops a Dead path silently, pushes an Err
entry for every other error, and pushes the simplified textual trace for
every Ok result. -/
theorem trace_collector_cases (simplifyF : List Event → List Event)
    (writeEventsF : List Event → String) (solver : Solver)
    (collected : List (Except String String)) :
    (trace_collector simplifyF writeEventsF (.error .dead) solver collected = collected)
    ∧ (∀ (v : Val) (f : LocalFrame),
      trace_collector simplifyF writeEventsF (.ok (v, f)) solver collected =
        collected ++ [.ok (writeEventsF (simplifyF solver.events))])
    ∧ (∀ (err : Error), err ≠ .dead →
      trace_collector simplifyF writeEventsF (.error err) solver collected =
        collected ++ [.error (formatError err)]) := by
  refine ⟨rfl, fun v f => rfl, fun err h => ?_⟩
  cases err <;> first | rfl | exact absurd rfl h

/-- C8 witness: an Exit error is pushed as an Err entry. -/
theorem trace_collector_cases_witness :
    trace_collector (fun es => es) (fun _ => "trace") (.error .exit) solver0 [] =
      [] ++ [.error (formatError .exit)] :=
  (trace_collector_cases (fun es => es) (fun _ => "trace") solver0 []).2.2 .exit (by decide)

theorem strip_prune_one (ts : List Nat) (li : LabeledInstr) :
    (prune_one ts li).strip = li.strip := by
  cases li with
  | labeled l i =>
    simp only [prune_one]
    split <;> rfl
  | unlabeled i => rfl

theorem unlabel_prune_label (ts : List Nat) (l : List Instr) :
    List.map LabeledInstr.strip (List.map (prune_one ts) (label_instrs l)) = l := by
  unfold label_instrs
  rw [List.map_map, List.map_map]
  refine Eq.trans (List.map_congr_left ?_) (List.enum_map_snd l)
  intro p _
  show (prune_one ts (LabeledInstr.labeled p.1 p.2)).strip = p.2
  rw [strip_prune_one]
  rfl

/-- C9: when the topological sort fails (cyclic CFG), the linearizer's
fallback returns the original instruction sequence unchanged: unlabeling
the pruned labeled form is the identity. -/
theorem linearize_cyclic_id (instrs : List Instr) : linearize_cyclic instrs = instrs := by
  unfold linearize_cyclic unlabel_instrs prune_labels
  exact unlabel_prune_label _ instrs

/-- C1: a Jump whose condition evaluates to a symbolic boolean v with
both v and not v satisfiable emits exactly one Branch event carrying the
current branches counter and the source location, increments the counter
once, checkpoints the solver (after the Branch event), pushes exactly one
Task of the frozen frame at pc + 1 with that checkpoint and the pending
assertion not v, asserts v on the live solver, and jumps to the target. -/
theorem step_symbolic_jump_forks (fuel : Nat) (sat : Solver → SmtExp → Bool)
    (ss : SharedState) (ext : Ext) (queue : List Task) (frame : LocalFrame)
    (solver solver1 : Solver) (exp : Exp) (target : Nat) (loc : SrcLoc)
    (v : Nat) (ls : LocalState)
    (hpc : frame.instrs.get? frame.pc = some (.jump exp target loc))
    (heval : eval_exp fuel exp frame.local_state ss ext solver = .ok (.symbolic v, ls, solver1))
    (htrue : sat solver1 (.var v) = true)
    (hfalse : sat solver1 (.not (.var v)) = true) :
    step fuel sat ss ext queue frame solver =
      .ok (.going
        ((Frame.withPc (frame.pc + 1)
            (freeze_frame { frame with local_state := ls, branches := frame.branches + 1 }),
          checkpoint (solver1.addEvent (.branch frame.branches loc)),
          some (.assert (.not (.var v)))) :: queue)
        { frame with local_state := ls, branches := frame.branches + 1, pc := target }
        ((solver1.addEvent (.branch frame.branches loc)).add (.assert (.var v)))) := by
  unfold step
  rw [hpc]
  simp only []
  rw [heval]
  simp only []
  rw [htrue, hfalse]
  rfl

/-- C1 witness: a concrete symbolic jump under an all-sat oracle produces
exactly the fork: one Branch event, one pushed Task over the checkpoint,
assertion of the condition, and pc set to the target. -/
theorem step_symbolic_jump_forks_witness :
    step 1 satTrue ssEmpty extNone [] frameJ solver0 =
      .ok (.going
        ((Frame.withPc (frameJ.pc + 1)
            (freeze_frame { frameJ with local_state := frameJ.local_state, branches := frameJ.branches + 1 }),
          checkpoint (solver0.addEvent (.branch frameJ.branches "L")),
          some (.assert (.not (.var 0)))) :: [])
        { frameJ with
          local_state := frameJ.local_state
          branches := frameJ.branches + 1
          pc := 3 }
        ((solver0.addEvent (.branch frameJ.branches "L")).add (.assert (.var 0)))) :=
  step_symbolic_jump_forks 1 satTrue ssEmpty extNone [] frameJ solver0 solver0 (.id 5) 3 "L" 0
    frameJ.local_state rfl rfl rfl rfl

/-- C2: a Call of a known function captures the caller in the return
continuation, clears the locals, binds the parameters positionally, and
enters the callee at pc 0; when the callee reaches End with that
continuation, the continuation restores the caller's pc plus one, the
caller's local variable bindings as they were at the call site, the
caller's instruction slice and stack, and assigns the callee's return
value (read from the RETURN slot, materializing it if still Uninit) to
the call's destination l-value. -/
theorem call_end_restores_caller (fuel : Nat) (sat : Solver → SmtExp → Bool)
    (ss : SharedState) (ext : Ext) (queue queueE : List Task) (frame : LocalFrame)
    (solver solver1 : Solver) (l : Loc) (b : Bool) (f : Name) (args : List Exp)
    (params : List (Name × Ty)) (rty : Ty) (callee_instrs : List Instr)
    (vals : List Val) (ls : LocalState) (vars1 : Bindings)
    (g : LocalFrame) (solver2 solver2b solver3 : Solver) (rv : UVal) (retv : Val)
    (ls2 : LocalState)
    (hpc : frame.instrs.get? frame.pc = some (.call l b f args))
    (hf : ss.functions f = some (params, rty, callee_instrs))
    (hargs : threadExps (fun e ls s => eval_exp fuel e ls ss ext s) args frame.local_state solver
      = .ok (vals, ls, solver1))
    (hbind : bindParams params vals [] = .ok vars1)
    (hgpc : g.instrs.get? g.pc = some .end_)
    (hgret : alget g.local_state.vars RETURN = some rv)
    (hread : read_return fuel rv ss solver2 = .ok (retv, solver2b))
    (hstack : g.stack = .cont (freeze_frame { frame with local_state := ls }) l)
    (hassign : assign fuel l retv { g.local_state with vars := ls.vars } ss solver2b =
      .ok (ls2, solver3)) :
    step fuel sat ss ext queue frame solver =
      .ok (.going queue
        { frame with
          local_state := { ls with vars := vars1 }
          stack := .cont (freeze_frame { frame with local_state := ls }) l
          pc := 0
          instrs := callee_instrs }
        solver1)
    ∧ step fuel sat ss ext queueE g solver2 =
      .ok (.going queueE
        { g with
          pc := frame.pc + 1
          local_state := ls2
          instrs := frame.instrs
          stack := frame.stack }
        solver3) := by
  constructor
  · unfold step
    rw [hpc]
    simp only []
    rw [hf]
    simp only []
    rw [hargs]
    simp only []
    rw [hbind]
  · unfold step
    rw [hgpc]
    simp only []
    rw [hgret]
    simp only []
    rw [hread]
    simp only []
    rw [hstack]
    simp only []
    unfold applyCont
    simp only [freeze_pc, freeze_local_state, freeze_instrs, freeze_stack]
    rw [show ({ frame with local_state := ls } : LocalFrame).local_state.vars = ls.vars from rfl]
    rw [hassign]

/-- C2 witness: calling the known function 10 from `frameCall` installs
the continuation and enters the callee; executing End in `frameCallee`
restores the call-site frame at pc 1 with the Bool-true return value
assigned to the RETURN destination. -/
theorem call_end_restores_caller_witness :
    step 1 satTrue ssCall extNone [] frameCall solver0 =
      .ok (.going []
        { frameCall with
          local_state := { frameCall.local_state with vars := [] }
          stack := .cont (freeze_frame { frameCall with local_state := frameCall.local_state })
            (.id RETURN)
          pc := 0
          instrs := [.end_] }
        solver0)
    ∧ step 1 satTrue ssCall extNone [] frameCallee solver0 =
      .ok (.going []
        { frameCallee with
          pc := frameCall.pc + 1
          local_state := { frameCallee.local_state with
            vars := alinsert frameCall.local_state.vars RETURN (.init (.bool true)) }
          instrs := frameCall.instrs
          stack := frameCall.stack }
        solver0) :=
  call_end_restores_caller 1 satTrue ssCall extNone [] [] frameCall solver0 solver0
    (.id RETURN) false 10 [] [] Ty.unit [.end_] [] frameCall.local_state []
    frameCallee solver0 solver0 solver0 (.init (.bool true)) (.bool true)
    { frameCallee.local_state with
      vars := alinsert frameCall.local_state.vars RETURN (.init (.bool true)) }
    rfl rfl rfl rfl rfl rfl rfl rfl rfl

theorem updf_same {α : Type} (f : Nat → α) (k : Nat) (v : α) : updf f k v k = v := by
  simp [updf]

theorem updf_other {α : Type} (f : Nat → α) (k t : Nat) (v : α) (h : t ≠ k) :
    updf f k v t = f t := by
  simp [updf, h]

theorem coordInv_processMsg (st : CoordState) (a : Activity) (h : coordInv st) :
    coordInv (processMsg st a) := by
  obtain ⟨h1, h2, h3⟩ := h
  cases a with
  | busy tid =>
    refine ⟨?_, ?_, h3⟩
    · intro t ht
      simp only [processMsg, updf] at ht ⊢
      by_cases he : t = tid
      · simp [he] at ht
      · simp only [he, if_false] at ht ⊢
        exact h1 t ht
    · intro t t' ht
      simp only [processMsg, updf] at ht
      by_cases he : t = tid
      · simp [he] at ht
      · simp only [he, if_false] at ht
        exact h2 t t' ht
  | idle tid =>
    refine ⟨?_, ?_, h3⟩
    · intro t ht
      simp only [processMsg, updf] at ht ⊢
      by_cases he : t = tid
      · simp [he]
      · simp only [he, if_false] at ht ⊢
        exact h1 t ht
    · intro t t' ht
      simp only [processMsg, updf] at ht
      by_cases he : t = tid
      · simp [he] at ht
        omega
      · simp only [he, if_false] at ht
        exact h2 t t' ht

theorem coordInv_drain (msgs : List Activity) : ∀ st, coordInv st → coordInv (drain st msgs) := by
  induction msgs with
  | nil => intro st h; exact h
  | cons m rest ih => intro st h; exact ih _ (coordInv_processMsg st m h)

theorem coordInv_pokeAll (st : CoordState) (h : coordInv st) : ∀ k, coordInv (pokeAll st k) := by
  intro k
  induction k with
  | zero => exact h
  | succ k ih =>
    obtain ⟨h1, h2, h3⟩ := ih
    unfold pokeAll
    cases hm : (pokeAll st k).lastMsg k with
    | busy t =>
      exact ⟨h1, h2, h3⟩
    | idle t =>
      have ht : t = k := h2 k t hm
      subst ht
      show coordInv
        { pokeAll st t with
          sent := updf (pokeAll st t).sent t ((pokeAll st t).sent t ++ [.poke])
          counters := updf (pokeAll st t).counters t 1 }
      refine ⟨?_, ?_, ?_⟩
      · intro u hu
        show (pokeAll st t).lastMsg u = .idle u
        have hu' : 1 ≤ updf (pokeAll st t).counters t 1 u := hu
        by_cases he : u = t
        · subst he
          exact hm
        · rw [updf_other _ _ _ _ he] at hu'
          exact h1 u hu'
      · exact h2
      · intro u r hr
        have hr' : r ∈ updf (pokeAll st t).sent t ((pokeAll st t).sent t ++ [.poke]) u := hr
        by_cases he : u = t
        · subst he
          rw [updf_same] at hr'
          rcases List.mem_append.mp hr' with hin | hin
          · exact h3 u r hin
          · simpa using hin
        · rw [updf_other _ _ _ _ he] at hr'
          exact h3 u r hr'

theorem killAll_spec (st : CoordState) :
    ∀ k, (∀ t, t < k → st.lastMsg t = .idle t) →
    ∃ st', killAll st k = .ok st' ∧ st'.counters = st.counters ∧ st'.lastMsg = st.lastMsg
      ∧ (∀ t, t < k → st'.sent t = st.sent t ++ [.kill])
      ∧ (∀ t, k ≤ t → st'.sent t = st.sent t) := by
  intro k
  induction k with
  | zero =>
    intro _
    exact ⟨st, rfl, rfl, rfl, fun t ht => absurd ht (Nat.not_lt_zero t), fun t _ => rfl⟩
  | succ k ih =>
    intro h
    obtain ⟨st1, hrun, hc, hl, hsent, hrest⟩ := ih (fun t ht => h t (Nat.lt_succ_of_lt ht))
    have hmk : st1.lastMsg k = .idle k := by
      rw [hl]
      exact h k (Nat.lt_succ_self k)
    refine ⟨{ st1 with sent := updf st1.sent k (st1.sent k ++ [.kill]) }, ?_, hc, hl, ?_, ?_⟩
    · unfold killAll
      rw [hrun]
      simp only []
      rw [hmk]
    · intro t ht
      show updf st1.sent k (st1.sent k ++ [.kill]) t = st.sent t ++ [.kill]
      by_cases he : t = k
      · subst he
        rw [updf_same]
        rw [hrest t (Nat.le_refl t)]
      · have ht' : t < k := by omega
        rw [updf_other _ _ _ _ he]
        exact hsent t ht'
    · intro t ht
      show updf st1.sent k (st1.sent k ++ [.kill]) t = st.sent t
      have he : t ≠ k := by omega
      rw [updf_other _ _ _ _ he]
      exact hrest t (by omega)

theorem coordCycle_false (n : Nat) (st : CoordState) (msgs : List Activity)
    (h : quiescentb n (drain st msgs) = false) :
    coordCycle n st msgs = .ok (pokeAll (drain st msgs) n, false) := by
  unfold coordCycle
  rw [h]
  simp

theorem coordRun_cons_false (n : Nat) (st st1 : CoordState) (msgs : List Activity)
    (rest : List (List Activity)) (h : coordCycle n st msgs = .ok (st1, false)) :
    coordRun n st (msgs :: rest) = coordRun n st1 rest := by
  have e : coordRun n st (msgs :: rest) =
      match coordCycle n st msgs with
      | .error err => .error err
      | .ok (st2, true) => .ok (st2, true)
      | .ok (st2, false) => coordRun n st2 rest := rfl
  rw [e, h]

theorem coordRun_cons_true (n : Nat) (st st1 : CoordState) (msgs : List Activity)
    (rest : List (List Activity)) (h : coordCycle n st msgs = .ok (st1, true)) :
    coordRun n st (msgs :: rest) = .ok (st1, true) := by
  have e : coordRun n st (msgs :: rest) =
      match coordCycle n st msgs with
      | .error err => .error err
      | .ok (st2, true) => .ok (st2, true)
      | .ok (st2, false) => coordRun n st2 rest := rfl
  rw [e, h]

theorem coordInit_inv : coordInv coordInit := by
  refine ⟨?_, ?_, ?_⟩
  · intro t ht
    simp [coordInit] at ht
  · intro t t' ht
    simp [coordInit] at ht
  · intro t r hr
    simp [coordInit] at hr

theorem coordRun_shape (n : Nat) :
    ∀ (cycles : List (List Activity)) (st st' : CoordState),
      coordInv st → coordRun n st cycles = .ok (st', true) →
      ∀ t, t < n → ∃ k, st'.sent t = List.replicate k .poke ++ [.kill] := by
  intro cycles
  induction cycles with
  | nil =>
    intro st st' hinv h
    simp [coordRun] at h
  | cons msgs rest ih =>
    intro st st' hinv h
    have hinv2 : coordInv (drain st msgs) := coordInv_drain msgs st hinv
    cases hq : quiescentb n (drain st msgs) with
    | false =>
      rw [coordRun_cons_false n st _ msgs rest (coordCycle_false n st msgs hq)] at h
      exact ih _ _ (coordInv_pokeAll _ hinv2 n) h
    | true =>
      have hidle : ∀ t, t < n → (drain st msgs).lastMsg t = .idle t := by
        intro t ht
        apply hinv2.1
        have hd := List.all_eq_true.mp hq t (List.mem_range.mpr ht)
        have := of_decide_eq_true hd
        omega
      obtain ⟨st2, hk, _, _, hsent, _⟩ := killAll_spec (drain st msgs) n hidle
      have hc : coordCycle n st msgs = .ok (st2, true) := by
        unfold coordCycle
        rw [hq]
        simp only [if_true]
        rw [hk]
      rw [coordRun_cons_true n st st2 msgs rest hc] at h
      simp only [Except.ok.injEq, Prod.mk.injEq] at h
      rw [← h.1]
      intro t ht
      refine ⟨((drain st msgs).sent t).length, ?_⟩
      rw [hsent t ht]
      congr 1
      exact List.eq_replicate_length.mpr (hinv2.2.2 t)

/-- C3: the coordinator of the task pool terminates exactly when every
worker's idleness counter has reached 2 after draining the activity
channel (idle, poked, idle again); on the terminating cycle it sends
exactly one Kill per worker, preceded only by Pokes, and sends nothing
afterwards — so over the per-worker FIFO poke channel no worker receives
a Poke after its Kill. -/
theorem coord_pool_termination (n : Nat) (cycles : List (List Activity)) (st : CoordState)
    (hdone : coordRun n coordInit cycles = .ok (st, true)) :
    (∀ t, t < n → ∃ k, st.sent t = List.replicate k .poke ++ [.kill])
    ∧ (∀ (st0 : CoordState) (msgs : List Activity) (r : CoordState × Bool),
        coordCycle n st0 msgs = .ok r → (r.2 = true ↔ quiescentb n (drain st0 msgs) = true)) := by
  constructor
  · exact coordRun_shape n cycles coordInit st coordInit_inv hdone
  · intro st0 msgs r h
    unfold coordCycle at h
    cases hq : quiescentb n (drain st0 msgs) with
    | true =>
      rw [hq] at h
      simp only [if_true] at h
      cases hk : killAll (drain st0 msgs) n with
      | error e =>
        rw [hk] at h
        simp at h
      | ok st2 =>
        rw [hk] at h
        simp only [Except.ok.injEq] at h
        rw [← h]
    | false =>
      rw [hq] at h
      simp only [Bool.false_eq_true, if_false] at h
      simp only [Except.ok.injEq] at h
      rw [← h]

/-- C3 witness: with one worker that reports idle, is poked, and reports
idle again, the coordinator terminates and that worker's channel carries
exactly one Poke followed by exactly one Kill. -/
theorem coord_pool_termination_witness :
    ∃ st, coordRun 1 coordInit [[Activity.idle 0], [Activity.idle 0]] = .ok (st, true)
      ∧ ∃ k, st.sent 0 = List.replicate k Response.poke ++ [Response.kill] := by
  refine ⟨_, rfl,
    (coord_pool_termination 1 [[Activity.idle 0], [Activity.idle 0]] _ rfl).1 0 (by decide)⟩

end Isla
